import Mathlib

/-!
# Verification of the Directory Browsing & Preview Engine
# of `mac-file-manager-pro` (`mac_file_manager_pro/file_manager.py`)

This file shallowly embeds the logic of the repository's core operations and
proves (or refutes) the specification's claims about them:

* file classification (`FileManager.get_file_category`),
* pane search filtering (`FileManager.apply_filters`),
* navigation handlers (`FileManager.load_left_directory`,
  `FileManager.go_back`, `FileManager.go_forward`),
* thumbnail request handling (`FileManager.load_thumbnail`,
  `FileManager.on_thumbnail_loaded`),
* the asynchronous thumbnail worker (`ThumbnailLoader.run`),
* the playback arbiter (`GlobalMediaManager`),
* table sorting (`FileTableModel.sort`, `FileTableModel._parse_size`,
  `FileManager.format_file_size`).

Python strings are embedded as `String`, Python lists as `List`, Python dicts
keyed by path as association lists, and Python floats as exact rationals kept
in unnormalized fraction form (`PyRat`, integer numerator over positive
natural denominator) so that every arithmetic step is kernel-computable; the
places where exact-rational arithmetic abstracts IEEE floating point are
noted at the definitions concerned.
-/

namespace FileManagerPro

/-! ## Python path helpers (`pathlib.PurePath.name` / `.suffix`)

The source computes extensions as `Path(file_path).suffix.lower()`. -/

/-- Split a character list at every occurrence of `sep` (like `str.split`). -/
def splitOnChar (sep : Char) : List Char → List (List Char)
  | [] => [[]]
  | c :: cs =>
    let r := splitOnChar sep cs
    if c = sep then [] :: r
    else
      match r with
      | [] => [[c]]
      | h :: t => (c :: h) :: t

/-- ASCII lower-casing of one character (`str.lower` restricted to ASCII,
which covers every extension and name the claims touch). -/
def pyLowerChar (c : Char) : Char :=
  if 'A' ≤ c ∧ c ≤ 'Z' then Char.ofNat (c.toNat + 32) else c

/-- `str.lower()` on an embedded string. -/
def pyLower (s : String) : String :=
  String.mk (s.toList.map pyLowerChar)

/-- The final path component, as `pathlib.PurePosixPath(p).name`: split on
`/`; empty components and single-dot components are normalized away; the name
is the last remaining component (or `""` for a root / empty path). -/
def pathName (p : String) : String :=
  String.mk ((((splitOnChar '/' p.toList).filter
    (fun c => !(c.isEmpty) && !(c == ['.']))).getLast?).getD [])

/-- Index of the last occurrence of `'.'` in a character list
(`str.rfind('.')`, `none` when absent). -/
def lastDotIdx (cs : List Char) : Option Nat :=
  (cs.enum.filterMap (fun ic => if ic.2 = '.' then some ic.1 else none)).getLast?

/-- `pathlib`'s suffix rule: with `i = name.rfind('.')`, the suffix is
`name[i:]` when `0 < i < len(name) - 1`, and `""` otherwise (so dotless
names, dotfiles like `.bashrc`, and names with only a trailing dot have no
suffix). -/
def pySuffix (p : String) : String :=
  let cs := (pathName p).toList
  match lastDotIdx cs with
  | some i => if 0 < i ∧ i < cs.length - 1 then String.mk (cs.drop i) else ""
  | none => ""

/-! ## `FileManager.get_file_category` (file_manager.py lines 1249-1291) -/

/-- `video_exts` list of `get_file_category` (and of `ThumbnailLoader.run`). -/
def video_exts : List String :=
  [".mp4", ".avi", ".mov", ".mkv", ".wmv", ".flv", ".webm", ".m4v", ".3gp"]

/-- `audio_exts` list of `get_file_category`. -/
def audio_exts : List String :=
  [".mp3", ".wav", ".flac", ".aac", ".ogg", ".m4a", ".wma", ".aiff"]

/-- `image_exts` list of `get_file_category` (note: it has no `.gif`). -/
def image_exts : List String :=
  [".jpg", ".jpeg", ".png", ".bmp", ".tiff", ".webp", ".svg"]

/-- `text_exts` list of `get_file_category` (note: it contains `.html`). -/
def text_exts : List String :=
  [".txt", ".md", ".py", ".js", ".html", ".css", ".json", ".xml", ".csv",
   ".log", ".ini", ".cfg", ".conf"]

/-- `archive_exts` list of `get_file_category`. -/
def archive_exts : List String :=
  [".zip", ".tar", ".tar.gz", ".tgz", ".rar", ".7z"]

/-- `doc_exts` list of `get_file_category`. -/
def doc_exts : List String :=
  [".pdf", ".doc", ".docx", ".rtf", ".xls", ".xlsx", ".ppt", ".pptx"]

/-- `FileManager.get_file_category`: the if-chain of membership tests on the
lower-cased extension, in source order (video, audio, gif, image, text,
archive, html, document, other). -/
def get_file_category (file_path : String) : String :=
  let file_ext := pyLower (pySuffix file_path)
  if video_exts.contains file_ext then "video"
  else if audio_exts.contains file_ext then "audio"
  else if file_ext = ".gif" then "gif"
  else if image_exts.contains file_ext then "image"
  else if text_exts.contains file_ext then "text"
  else if archive_exts.contains file_ext then "archive"
  else if file_ext = ".html" ∨ file_ext = ".htm" then "html"
  else if doc_exts.contains file_ext then "document"
  else "other"

/-! ## `FileManager.apply_filters` (file_manager.py lines 1793-1828) -/

/-- Contiguous-substring test on character lists: `needle` occurs starting at
some position of `hay`. -/
def subListAt (needle : List Char) : List Char → Bool
  | [] => needle.isEmpty
  | c :: cs => needle.isPrefixOf (c :: cs) || subListAt needle cs

/-- Python's `needle in hay` on strings: contiguous-substring containment
(the empty needle is contained in everything). -/
def pyIn (needle hay : String) : Bool :=
  subListAt needle.toList hay.toList

/-- The reverse-index `removeRow` loop of `apply_filters`: visit rows
`r-1, r-2, ..., 0` of `items` and remove each row whose text fails `keep`.
Descending order means a removal never shifts the rows still to be visited. -/
def removeRowsDown (keep : String → Bool) : Nat → List String → List String
  | 0, items => items
  | r + 1, items =>
      removeRowsDown keep r (if keep (items.getD r "") then items else items.eraseIdx r)

/-- The loop `for row in range(model.rowCount() - 1, -1, -1): ...
model.removeRow(row)` applied to a whole model. -/
def filterModelRows (keep : String → Bool) (items : List String) : List String :=
  removeRowsDown keep items.length items

/-- `FileManager.apply_filters` for one pane, given the freshly re-enumerated
folder-name and file-name lists: the method lower-cases the search box text,
reloads both models from the current directory, and then, only when the
search text is nonempty, removes every row whose lower-cased name does not
contain the search text as a substring. -/
def apply_filters (search_text : String) (folders files : List String) :
    List String × List String :=
  let s := pyLower search_text
  if s = "" then (folders, files)
  else
    (filterModelRows (fun n => pyIn s (pyLower n)) folders,
     filterModelRows (fun n => pyIn s (pyLower n)) files)

/-! ## `GlobalMediaManager` (file_manager.py lines 770-798) and its call
sites (`toggle_playback` at 114-121 and 235-242, `toggle_animation` at
642-651) -/

/-- Arbiter state: the two "current" slots of `GlobalMediaManager`, plus the
set of handles whose underlying widget object is currently playing (a started
`QMediaPlayer` or a running `QMovie`). Handles are opaque tokens, embedded as
`Nat`. -/
structure MediaState where
  current_media_player : Option Nat
  current_gif_movie : Option Nat
  playing : List Nat
deriving DecidableEq, Repr

/-- State at module load: `GlobalMediaManager.__init__` sets both slots to
`None`; nothing is playing. -/
def MediaState.init : MediaState := ⟨none, none, []⟩

/-- Mark a handle as playing (`QMediaPlayer.play()` /
`QMovie.setPaused(False)` on the handle's object). -/
def playHandle (h : Nat) (s : MediaState) : MediaState :=
  { s with playing := h :: s.playing }

/-- `GlobalMediaManager.stop_current_media`: call `.stop()` on the registered
media player (if any) and `.setPaused(True)` on the registered GIF movie (if
any), then clear both slots. Stopping removes exactly those handles from the
playing set. -/
def stop_current_media (s : MediaState) : MediaState :=
  { current_media_player := none
    current_gif_movie := none
    playing := s.playing.filter
      (fun x => !(s.current_media_player == some x) &&
                !(s.current_gif_movie == some x)) }

/-- `GlobalMediaManager.register_media_player`: stop whatever is current,
then store the new handle. -/
def register_media_player (h : Nat) (s : MediaState) : MediaState :=
  { stop_current_media s with current_media_player := some h }

/-- `GlobalMediaManager.register_gif_movie`: stop whatever is current, then
store the new movie handle. -/
def register_gif_movie (h : Nat) (s : MediaState) : MediaState :=
  { stop_current_media s with current_gif_movie := some h }

/-- The spec-level operations on the arbiter. `registerPlayer h` /
`registerGif h` are `registerPlayback(h)` as realized at every call site:
register the handle with the global manager and then start it playing. -/
inductive MediaOp where
  | registerPlayer (h : Nat)
  | registerGif (h : Nat)
  | stopCurrent
deriving DecidableEq, Repr

/-- One operation applied to the arbiter state. -/
def MediaOp.step : MediaOp → MediaState → MediaState
  | .registerPlayer h, s => playHandle h (register_media_player h s)
  | .registerGif h, s => playHandle h (register_gif_movie h s)
  | .stopCurrent, s => stop_current_media s

/-- Run a sequence of arbiter operations from a state. -/
def runMediaOps (ops : List MediaOp) (s : MediaState) : MediaState :=
  ops.foldl (fun s op => op.step s) s

/-- Invariant: every playing handle is held by one of the two current slots. -/
def MediaInv (s : MediaState) : Prop :=
  ∀ x ∈ s.playing,
    s.current_media_player = some x ∨ s.current_gif_movie = some x

/-! ## Exact embedding of Python float values

A Python float value is embedded as an exact rational kept in unnormalized
fraction form, so that every operation is plain integer arithmetic (Mathlib's
`Rat` normalizes through `Nat.gcd`-based externs that the kernel treats as
opaque). Every denominator this development constructs is positive. IEEE
representation error, overflow, and the `inf`/`nan` literals are outside the
model; no value the program builds is affected by them at the granularity the
claims mention. -/

/-- An exact Python float value: the fraction `num / den`. -/
structure PyRat where
  num : Int
  den : Nat
deriving DecidableEq, Repr

/-- An integer as a `PyRat`. -/
def PyRat.ofInt (n : Int) : PyRat := ⟨n, 1⟩

/-- Multiplication by a natural constant (`x * 1024` and friends). -/
def PyRat.mulNat (q : PyRat) (k : Nat) : PyRat := ⟨q.num * k, q.den⟩

/-- Division by a positive natural constant (`x / 1024.0`). -/
def PyRat.divNat (q : PyRat) (k : Nat) : PyRat := ⟨q.num, q.den * k⟩

/-- Value order `q ≤ r`, by cross multiplication (denominators are
nonnegative, and positive everywhere this development builds them). -/
def PyRat.le (q r : PyRat) : Bool := decide (q.num * r.den ≤ r.num * q.den)

/-- Strict value order `q < r`, by cross multiplication. -/
def PyRat.lt (q r : PyRat) : Bool := decide (q.num * r.den < r.num * q.den)

/-- `num * 10 ^ e / 10 ^ fk` — the value of a parsed float literal with
integer-and-fraction numerator `num`, `fk` fractional digits and decimal
exponent `e`. -/
def PyRat.ofSci (num : Nat) (fk : Nat) (e : Int) : PyRat :=
  match e with
  | .ofNat k => ⟨(num : Int) * 10 ^ k, 10 ^ fk⟩
  | .negSucc k => ⟨(num : Int), 10 ^ fk * 10 ^ (k + 1)⟩

/-- Value negation (the leading `-` sign of a float literal). -/
def PyRat.neg (q : PyRat) : PyRat := ⟨-q.num, q.den⟩

/-! ## `FileManager.format_file_size` (file_manager.py lines 1229-1240) -/

/-- Round the value of `q` (positive denominator) to the nearest integer,
ties to even — the rounding of Python's `f"{x:.1f}"`, applied here to the
exact value. `Int.fdiv q.num q.den` is the floor of the value; `rn` is the
numerator of the remainder. -/
def roundHalfEven (q : PyRat) : Int :=
  let f := Int.fdiv q.num q.den
  let rn := q.num - f * q.den
  if 2 * rn < (q.den : Int) then f
  else if (q.den : Int) < 2 * rn then f + 1
  else if f % 2 = 0 then f else f + 1

/-- Decimal digits of a natural number, least significant first (`fuel`
bounds the recursion; callers pass `fuel = n`, which always suffices). -/
def natDigitsRevF : Nat → Nat → List Nat
  | 0, n => [n]
  | fuel + 1, n => if n < 10 then [n] else (n % 10) :: natDigitsRevF fuel (n / 10)

/-- Decimal digits of a natural number, least significant first. -/
def natDigitsRev (n : Nat) : List Nat := natDigitsRevF n n

/-- The character for one decimal digit. -/
def digitChar (d : Nat) : Char := Char.ofNat (48 + d)

/-- Decimal rendering of a natural number. -/
def natToDecimal (n : Nat) : String :=
  String.mk ((natDigitsRev n).reverse.map digitChar)

/-- Python `f"{x:.1f}"` for the nonnegative values `format_file_size` feeds
it: the value rounded to one decimal place (ties to even), rendered as
`<integer part>.<single digit>`. -/
def formatFixed1 (q : PyRat) : String :=
  let m := (roundHalfEven (q.mulNat 10)).toNat
  natToDecimal (m / 10) ++ "." ++ String.mk [digitChar (m % 10)]

/-- The `size_names` table of `format_file_size`. -/
def size_names : List String := ["B", "KB", "MB", "GB", "TB"]

/-- The `while size_bytes >= 1024 and i < len(size_names) - 1` loop:
repeatedly divide by 1024 and advance the unit index. The guard `i < 4`
bounds the iteration count by `4 - i`, so `fuel = 4` always suffices. -/
def formatLoopF : Nat → PyRat → Nat → PyRat × Nat
  | 0, x, i => (x, i)
  | fuel + 1, x, i =>
      if (PyRat.ofInt 1024).le x ∧ i < 4 then
        formatLoopF fuel (x.divNat 1024) (i + 1)
      else (x, i)

/-- The scaling loop of `format_file_size`. -/
def formatLoop (x : PyRat) (i : Nat) : PyRat × Nat := formatLoopF 4 x i

/-- `FileManager.format_file_size`: `"0 B"` for zero, otherwise the scaled
value with one decimal and its unit. -/
def format_file_size (size_bytes : Nat) : String :=
  if size_bytes = 0 then "0 B"
  else
    let xi := formatLoop (PyRat.ofInt size_bytes) 0
    formatFixed1 xi.1 ++ " " ++ size_names.getD xi.2 "B"

/-! ## Directory enumeration and the pane state
(`FileManager.load_*_directory` and the four model loaders,
file_manager.py lines 1104-1227) -/

/-- One `QFileInfo` entry as the loaders read it: name, byte size
(`entry.size()`, meaningful for files), formatted modification date, and
full path. -/
structure DirEntry where
  name : String
  size : Nat
  date : String
  path : String
deriving DecidableEq, Repr

/-- The host filesystem as seen through `os.path.isdir` and
`QDir.entryInfoList` with the `Dirs` / `Files` + `NoDotAndDotDot` filters. -/
structure FS where
  isdir : String → Bool
  dirEntries : String → List DirEntry
  fileEntries : String → List DirEntry

/-- One row of a `FileTableModel`: `[Name, Size, Type, Date Modified, Icon,
FilePath]` with the icon column (a `QIcon` object) elided. -/
structure Row where
  name : String
  size : String
  ftype : String
  date : String
  path : String
deriving DecidableEq, Repr

/-- `FileManager.get_file_type` (lines 1242-1247): upper-cased last
dot-component plus `" File"`, or `"File"` for dotless names. -/
def pyUpperChar (c : Char) : Char :=
  if 'a' ≤ c ∧ c ≤ 'z' then Char.ofNat (c.toNat - 32) else c

/-- `str.upper()` on an embedded string (ASCII). -/
def pyUpper (s : String) : String :=
  String.mk (s.toList.map pyUpperChar)

/-- `FileManager.get_file_type`. -/
def get_file_type (filename : String) : String :=
  if filename.toList.contains '.' then
    pyUpper (pyLower (String.mk
      (((splitOnChar '.' filename.toList).getLast?).getD []))) ++ " File"
  else "File"

/-- `FileManager.load_folders_to_model`: folder names of the directory. -/
def load_folders_to_model (fs : FS) (path : String) : List String :=
  (fs.dirEntries path).map (·.name)

/-- `FileManager.load_files_to_model`: file names of the directory. -/
def load_files_to_model (fs : FS) (path : String) : List String :=
  (fs.fileEntries path).map (·.name)

/-- `FileManager.load_folders_to_table_model`: folder rows, with the literal
`"<DIR>"` size placeholder and type `"Folder"`. -/
def load_folders_to_table_model (fs : FS) (path : String) : List Row :=
  (fs.dirEntries path).map (fun e => ⟨e.name, "<DIR>", "Folder", e.date, e.path⟩)

/-- `FileManager.load_files_to_table_model`: file rows, whose size cell is
`format_file_size(entry.size())`. -/
def load_files_to_table_model (fs : FS) (path : String) : List Row :=
  (fs.fileEntries path).map
    (fun e => ⟨e.name, format_file_size e.size, get_file_type e.name, e.date, e.path⟩)

/-- The mutable pane state held on the `FileManager` window: per-side current
directory, the two icon-view models, the two table models, and the folder
selector text. The source duplicates every field with `left_` / `right_`
prefixes rather than instantiating one pane type twice. -/
structure FMState where
  left_current_directory : String
  right_current_directory : String
  left_folder_model : List String
  left_file_model : List String
  right_folder_model : List String
  right_file_model : List String
  left_folder_table_model : List Row
  left_file_table_model : List Row
  right_folder_table_model : List Row
  right_file_table_model : List Row
  left_folder_selector : String
  right_folder_selector : String
deriving DecidableEq, Repr

/-- The navigation-failure vocabulary of the specification
(`NotFound` / `NotADirectory`). The embedded handlers never produce one —
their Python bodies return `None` on every path — but the type is needed to
state what the specification expects of the result. -/
inductive NavError where
  | notFound
  | notADirectory
deriving DecidableEq, Repr

/-- `FileManager.load_left_directory` (lines 1104-1117): a path that is not a
directory is rejected by a bare `return` (no state change, no error value);
otherwise the current directory is set, the four left models are reloaded,
and the selector text is synced. The second component is the Python return
value, which is `None` on every path. -/
def load_left_directory (fs : FS) (s : FMState) (path : String) :
    FMState × Option NavError :=
  if fs.isdir path then
    ({ s with
        left_current_directory := path
        left_folder_model := load_folders_to_model fs path
        left_file_model := load_files_to_model fs path
        left_folder_table_model := load_folders_to_table_model fs path
        left_file_table_model := load_files_to_table_model fs path
        left_folder_selector := path }, none)
  else (s, none)

/-- `FileManager.load_right_directory` (lines 1119-1132), the `right_`
duplicate. -/
def load_right_directory (fs : FS) (s : FMState) (path : String) :
    FMState × Option NavError :=
  if fs.isdir path then
    ({ s with
        right_current_directory := path
        right_folder_model := load_folders_to_model fs path
        right_file_model := load_files_to_model fs path
        right_folder_table_model := load_folders_to_table_model fs path
        right_file_table_model := load_files_to_table_model fs path
        right_folder_selector := path }, none)
  else (s, none)

/-- `FileManager.go_back` (lines 1726-1729): the body is
`logger.info(f"Go back in {pane_name} pane")` and nothing else — no history
stack exists anywhere in the class, and no state is touched. -/
def go_back (_pane_name : String) (s : FMState) : FMState := s

/-- `FileManager.go_forward` (lines 1731-1734): likewise only a log line. -/
def go_forward (_pane_name : String) (s : FMState) : FMState := s

/-! ## Thumbnail request bookkeeping
(`FileManager.load_thumbnail` / `on_thumbnail_loaded`, lines 1315-1343) -/

/-- Dict write `d[k] = v` on an association list. -/
def dictSet {α : Type} (k : String) (v : α) :
    List (String × α) → List (String × α)
  | [] => [(k, v)]
  | (k', v') :: rest =>
      if k' = k then (k, v) :: rest else (k', v') :: dictSet k v rest

/-- Dict read `d.get(k)` on an association list. -/
def dictGet? {α : Type} (k : String) (d : List (String × α)) : Option α :=
  (d.find? (fun kv => kv.1 == k)).map (·.2)

/-- Dict delete `del d[k]` on an association list. -/
def dictDel {α : Type} (k : String) :
    List (String × α) → List (String × α)
  | [] => []
  | (k', v') :: rest =>
      if k' = k then rest else (k', v') :: dictDel k rest

/-- The pixmaps `ThumbnailLoader.run` can emit, identified by provenance:
a decoded, scaled image, the drawn light-gray default document icon, and the
plain light-gray square that the exception handler fills. (No video-frame
pixmap exists: the frame-conversion line `QImage(...)` at file_manager.py
line 364 names a class that is never imported — the QtGui import at line 24
brings in `QIcon, QPixmap, QPainter, ...` but not `QImage` — so that line
always raises `NameError` and control lands in the exception handler.) -/
inductive Pix where
  | scaledImage (size : Nat)
  | defaultDocIcon (size : Nat)
  | blankGray (size : Nat)
deriving DecidableEq, Repr

/-- The `thumbnail_loaded` completion channel is declared
`pyqtSignal(str, QPixmap)`: every emission carries a path and a pixmap.
There is no error-shaped emission. -/
inductive ThumbEmit where
  | loaded (path : String) (pix : Pix)
deriving DecidableEq, Repr

/-- The thumbnail bookkeeping owned by `FileManager`: the completed-result
cache, the in-flight loader dict (path → loader object, identified by a
fresh number), a counter supplying fresh loader identities, and an
append-only log recording one entry per decode job spawned
(`ThumbnailLoader(...).start()`). -/
structure ThumbState where
  thumbnail_cache : List (String × Pix)
  thumbnail_loaders : List (String × Nat)
  next_loader_id : Nat
  spawn_log : List String
deriving DecidableEq, Repr

/-- `FileManager.__init__`: empty cache and loader dict. -/
def ThumbState.init : ThumbState := ⟨[], [], 0, []⟩

/-- `FileManager.load_thumbnail` (lines 1315-1330): a cached path is served
from `thumbnail_cache` (the item icon is set; no job is spawned);
a directory is ignored; for any other path a fresh `ThumbnailLoader` is
constructed, stored in `thumbnail_loaders[file_path]` — overwriting whatever
loader may already be in flight for that path; the method never checks for
one — and started. -/
def load_thumbnail (fs : FS) (file_path : String) (s : ThumbState) : ThumbState :=
  if (dictGet? file_path s.thumbnail_cache).isSome then s
  else if fs.isdir file_path then s
  else
    { s with
        thumbnail_loaders := dictSet file_path s.next_loader_id s.thumbnail_loaders
        next_loader_id := s.next_loader_id + 1
        spawn_log := s.spawn_log ++ [file_path] }

/-- `FileManager.on_thumbnail_loaded` (lines 1332-1343): cache the delivered
pixmap under its path, update the item icons (outside this state), and drop
the loader-dict entry for the path if one is present. -/
def on_thumbnail_loaded (file_path : String) (pixmap : Pix) (s : ThumbState) :
    ThumbState :=
  { s with
      thumbnail_cache := dictSet file_path pixmap s.thumbnail_cache
      thumbnail_loaders := dictDel file_path s.thumbnail_loaders }

/-! ## `ThumbnailLoader.run` (file_manager.py lines 341-407) -/

/-- One decoded video frame, abstracted to the two statistics the scan
reads: `np.mean(frame)` and `np.std(frame)`. The scan only compares them
with the integer thresholds 10 and 5, so they are embedded at integer
granularity. -/
structure Frame where
  mean : Int
  std : Int
deriving DecidableEq, Repr

/-- What the worker finds at its path when it runs: a decodable video (its
frame sequence), an image file (`isNull` records whether `QPixmap` failed to
decode it), any other readable file, or a file whose processing raises an
exception (vanished file, permission denied, corrupt data, missing codec). -/
inductive FileContent where
  | video (frames : List Frame)
  | image (isNull : Bool)
  | plain
  | raises
deriving DecidableEq

/-- The image-extension list inside `ThumbnailLoader.run` (line 380) — note
it differs from the classifier's: it contains `.gif`. -/
def thumb_image_exts : List String :=
  [".jpg", ".jpeg", ".png", ".gif", ".bmp", ".tiff", ".webp"]

/-- The frame-scanning loop of `ThumbnailLoader.run` (lines 354-373): up to
`budget` (called with 30) reads; a read past the end of the video returns
`ret = False` and breaks; the loop stops at the first frame with
`np.mean(frame) > 10` and `np.std(frame) > 5`, whose index this function
returns. -/
def scanFrames : Nat → Nat → List Frame → Option Nat
  | 0, _, _ => none
  | _ + 1, _, [] => none
  | b + 1, i, f :: rest =>
      if 10 < f.mean ∧ 5 < f.std then some i
      else scanFrames b (i + 1) rest

/-- `ThumbnailLoader.run`: the emission produced by one worker run, for a
path whose on-disk content is `content` and requested size `size`. A video
extension triggers the frame scan; when the scan stops at a qualifying
frame, the conversion `qimg = QImage(...)` on line 364 raises `NameError`
(`QImage` is never imported, see `Pix`), so the exception handler emits the
plain light-gray pixmap; when the scan finds nothing, control falls through
(the video extension is in none of the later lists) to the default-icon
drawing. An image extension is decoded with `QPixmap` (which is imported);
a null pixmap falls through to the default icon. Everything else gets the
default icon. The `except` clause catches any raise — including that
`NameError` — and emits a plain light-gray pixmap on the same
`thumbnail_loaded` channel. -/
def ThumbnailLoader.run (path : String) (size : Nat) (content : FileContent) :
    ThumbEmit :=
  match content with
  | .raises => .loaded path (.blankGray size)
  | content =>
    let file_ext := pyLower (pySuffix path)
    if video_exts.contains file_ext then
      match content with
      | .video frames =>
        match scanFrames 30 0 frames with
        | some _ => .loaded path (.blankGray size)
        | none => .loaded path (.defaultDocIcon size)
      | _ => .loaded path (.defaultDocIcon size)
    else if thumb_image_exts.contains file_ext then
      match content with
      | .image false => .loaded path (.scaledImage size)
      | _ => .loaded path (.defaultDocIcon size)
    else .loaded path (.defaultDocIcon size)

/-! ## `FileTableModel._parse_size` and `FileTableModel.sort`
(file_manager.py lines 726-768)

`float(...)` is embedded exactly over decimal literals, with the value as an
exact rational: optional surrounding whitespace, optional sign, digits with
an optional point and an optional exponent, underscores permitted between
digits. The `inf` / `nan` literals and IEEE rounding / overflow are outside
the model (no size cell the program builds contains them). -/

/-- Python whitespace (`str.strip()` / `float()` leading-trailing skip),
ASCII part. -/
def isPyWs (c : Char) : Bool :=
  c = ' ' || c = '\t' || c = '\n' || c = '\r' || c = '\x0b' || c = '\x0c'

/-- `str.strip()` on a character list. -/
def stripWs (cs : List Char) : List Char :=
  ((cs.dropWhile isPyWs).reverse.dropWhile isPyWs).reverse

/-- Digit-group scanner for CPython's float grammar: consume decimal digits,
allowing an `_` between two digits; return the accumulated value, the number
of digits consumed, and the unconsumed remainder. An `_` that is not
preceded and followed by a digit is left unconsumed (and makes the whole
parse fail at the caller when anything is left over). -/
def scanDigits (acc k : Nat) : List Char → Nat × Nat × List Char
  | [] => (acc, k, [])
  | c :: cs =>
    if c.isDigit then scanDigits (10 * acc + (c.toNat - 48)) (k + 1) cs
    else if c = '_' ∧ 0 < k then
      match cs with
      | d :: cs' =>
        if d.isDigit then scanDigits (10 * acc + (d.toNat - 48)) (k + 1) cs'
        else (acc, k, c :: cs)
      | [] => (acc, k, [c])
    else (acc, k, c :: cs)

/-- Mantissa of the float grammar: `digits [. digits]` or `. digits`, with
at least one digit overall; returns the numerator, the count of fractional
digits, and the rest. -/
def scanMantissa (cs : List Char) : Option (Nat × Nat × List Char) :=
  let (iv, ik, r1) := scanDigits 0 0 cs
  match r1 with
  | '.' :: r2 =>
    let (fv, fk, r3) := scanDigits 0 0 r2
    if ik + fk = 0 then none else some (iv * 10 ^ fk + fv, fk, r3)
  | _ => if ik = 0 then none else some (iv, 0, r1)

/-- Exponent tail of the float grammar: empty, or `e`/`E` with an optional
sign and digits, consuming the entire remainder. -/
def scanExpTail (cs : List Char) : Option Int :=
  match cs with
  | [] => some 0
  | c :: r =>
    if c = 'e' ∨ c = 'E' then
      let sr : Bool × List Char :=
        match r with
        | '+' :: r' => (false, r')
        | '-' :: r' => (true, r')
        | _ => (false, r)
      let (ev, ek, r2) := scanDigits 0 0 sr.2
      if ek = 0 ∨ r2 ≠ [] then none
      else some (if sr.1 then -(ev : Int) else (ev : Int))
    else none

/-- Unsigned part of `float(s)`: mantissa then exponent tail. -/
def pyFloatCore (cs : List Char) : Option PyRat := do
  let (num, fk, r) ← scanMantissa cs
  let e ← scanExpTail r
  pure (PyRat.ofSci num fk e)

/-- Optional leading sign of `float(s)` (applied after stripping). -/
def pyFloatSigned : List Char → Option PyRat
  | [] => pyFloatCore []
  | c :: r =>
    if c = '+' then pyFloatCore r
    else if c = '-' then (pyFloatCore r).map PyRat.neg
    else pyFloatCore (c :: r)

/-- CPython `float(s)` on a character list: strip whitespace, take an
optional sign, then the unsigned grammar (see `pyFloatSigned`). -/
def pyFloatL? (cs : List Char) : Option PyRat :=
  pyFloatSigned (stripWs cs)

/-- `FileTableModel._parse_size` (lines 747-768): the literal `"<DIR>"`
sorts as `-1`; otherwise the string is stripped, a recognized unit suffix
selects a multiplier and is sliced off, the remainder goes through
`float(...)`, and any parse failure is caught by the bare `except` and
mapped to `0`. -/
def _parse_size (size_str : String) : PyRat :=
  if size_str = "<DIR>" then .ofInt (-1)
  else
    let cs := stripWs size_str.toList
    if [' ', 'B'].isSuffixOf cs then
      ((pyFloatL? (cs.take (cs.length - 2))).getD (.ofInt 0))
    else if [' ', 'K', 'B'].isSuffixOf cs then
      (((pyFloatL? (cs.take (cs.length - 3))).map
        (·.mulNat 1024)).getD (.ofInt 0))
    else if [' ', 'M', 'B'].isSuffixOf cs then
      (((pyFloatL? (cs.take (cs.length - 3))).map
        (·.mulNat (1024 * 1024))).getD (.ofInt 0))
    else if [' ', 'G', 'B'].isSuffixOf cs then
      (((pyFloatL? (cs.take (cs.length - 3))).map
        (·.mulNat (1024 * 1024 * 1024))).getD (.ofInt 0))
    else if [' ', 'T', 'B'].isSuffixOf cs then
      (((pyFloatL? (cs.take (cs.length - 3))).map
        (·.mulNat (1024 * 1024 * 1024 * 1024))).getD (.ofInt 0))
    else
      ((pyFloatL? cs).getD (.ofInt 0))

/-- The ascending key order `_parse_size(x[1]) ≤ _parse_size(y[1])` that
`FileTableModel.sort` sorts by for the Size column. -/
def rowSizeLE (a b : Row) : Prop :=
  PyRat.le (_parse_size a.size) (_parse_size b.size) = true

instance : DecidableRel rowSizeLE := fun a b =>
  Bool.decEq (PyRat.le (_parse_size a.size) (_parse_size b.size)) true

/-- `FileTableModel.sort` for the Size column in ascending order
(`self._data.sort(key=lambda x: self._parse_size(x[1]))`, `reverse=False`):
Python's sort is a stable sort by the key order; it is embedded as a stable
insertion sort, which computes the same list as any stable sort by the same
total preorder. -/
def sortBySizeAsc (data : List Row) : List Row :=
  data.insertionSort rowSizeLE

/-- Modelled from the claim's wording, for the refinement check against
`_parse_size`: the unit-suffix table `B`/`KB`/`MB`/`GB`/`TB` with its byte
multipliers. -/
def unit_table : List (List Char × Nat) :=
  [([' ', 'B'], 1), ([' ', 'K', 'B'], 1024), ([' ', 'M', 'B'], 1024 ^ 2),
   ([' ', 'G', 'B'], 1024 ^ 3), ([' ', 'T', 'B'], 1024 ^ 4)]

/-- Modelled from the claim's wording, for the refinement check against
`_parse_size`: `-1` for the exact string `"<DIR>"`; otherwise the byte count
— the trimmed input's unit suffix multiplied out, or the bare number — when
the trimmed input parses, and `0` for every string that does not parse. -/
def parse_size_spec (size_str : String) : PyRat :=
  if size_str = "<DIR>" then .ofInt (-1)
  else
    let cs := stripWs size_str.toList
    match unit_table.find? (fun u => u.1.isSuffixOf cs) with
    | some u =>
        ((pyFloatL? (cs.take (cs.length - u.1.length))).map
          (·.mulNat u.2)).getD (.ofInt 0)
    | none => (pyFloatL? cs).getD (.ofInt 0)

/-! ## Concrete fixtures used by witnesses and counterexamples -/

/-- A filesystem in which exactly `/a` and `/b` are directories. -/
def navFS : FS := ⟨fun p => p == "/a" || p == "/b", fun _ => [], fun _ => []⟩

/-- An arbitrary concrete resting pane state. -/
def fmState0 : FMState :=
  ⟨"/h", "/h", [], [], [], [], [], [], [], [], "/h", "/h"⟩

/-- A filesystem with no directories (every probed path is a plain file). -/
def thumbFS : FS := ⟨fun _ => false, fun _ => [], fun _ => []⟩

/-- A thumbnail state in which `/tmp/t/a.jpg` already has a cached result. -/
def cachedThumbState : ThumbState :=
  on_thumbnail_loaded "/tmp/t/a.jpg" (.scaledImage 128) ThumbState.init

/-- The spec's video scenario: five black frames, then a lit sixth frame. -/
def demoFrames : List Frame :=
  [⟨0, 0⟩, ⟨0, 0⟩, ⟨0, 0⟩, ⟨0, 0⟩, ⟨0, 0⟩, ⟨120, 40⟩]

/-- A table-model data list holding one file row (5-byte file) and one
directory row, file first. -/
def demoRows : List Row :=
  [⟨"f.txt", format_file_size 5, "TXT File", "Jan 01", "/t/f.txt"⟩,
   ⟨"d", "<DIR>", "Folder", "Jan 01", "/t/d"⟩]

end FileManagerPro

namespace FileManagerPro

/-! # Theorems -/

/-- **C4.** `get_file_category` is a pure, case-insensitive function of the
extension: the explicit GIF extension yields `"gif"` and unknown or
extensionless files yield `"other"` as claimed — but the claim's HTML half
fails: `text_exts` contains `".html"`, so the if-chain classifies
`index.html` (any casing) as `"text"`, and the explicit HTML branch — whose
own list `['.html', '.htm']` shows `.html` was meant to reach it — is
reachable only for `.htm`. -/
theorem get_file_category_html_shadowed :
    get_file_category "index.html" = "text" ∧
    get_file_category "INDEX.HTML" = "text" ∧
    get_file_category "page.htm" = "html" ∧
    get_file_category "anim.gif" = "gif" ∧
    get_file_category "ANIM.GIF" = "gif" ∧
    get_file_category "noext" = "other" ∧
    get_file_category "x.xyz" = "other" := by decide

/-- **C2.** After navigating the left pane to `/a` and then `/b`, `go_back`
leaves the current path at `/b` (its body only logs — no history or forward
stack exists anywhere in the class), and `go_forward` is likewise an
identity; the claimed return to `/a` never happens. -/
theorem go_back_noop_after_two_navigations :
    (go_back "Left"
        ((load_left_directory navFS
          ((load_left_directory navFS fmState0 "/a").1) "/b").1)).left_current_directory
      = "/b" ∧
    ("/b" : String) ≠ "/a" ∧
    (∀ pane s, go_back pane s = s ∧ go_forward pane s = s) := by
  refine ⟨by decide, by decide, fun pane s => ⟨rfl, rfl⟩⟩

/-- **C7 counterexample.** Navigating to a path that is not a directory
returns Python's `None` — not a `NotADirectory` or `NotFound` value — so the
caller is not informed of the error, refuting the claim as stated (the
state-unchanged half does hold; see the amended theorem). -/
theorem navigate_failure_reports_no_error :
    ¬ ((load_left_directory navFS fmState0 "/nope").2 = some .notADirectory ∨
       (load_left_directory navFS fmState0 "/nope").2 = some .notFound) := by
  decide

/-- **C7 amended.** For every pane state and every path that does not
resolve to a directory, `navigate` (`load_left_directory` /
`load_right_directory`) leaves the pane's entire state — current path,
all four displayed models, selector text — unchanged, and returns silently
(`None`): there is no partial navigation, and no error result either. -/
theorem navigate_not_dir_state_unchanged (fs : FS) (s : FMState) (p : String)
    (h : fs.isdir p = false) :
    load_left_directory fs s p = (s, none) ∧
    load_right_directory fs s p = (s, none) := by
  simp [load_left_directory, load_right_directory, h]

/-- Witness for `navigate_not_dir_state_unchanged` at a concrete input. -/
theorem navigate_not_dir_state_unchanged_witness :
    navFS.isdir "/nope" = false ∧
    (load_left_directory navFS fmState0 "/nope" = (fmState0, none) ∧
     load_right_directory navFS fmState0 "/nope" = (fmState0, none)) :=
  ⟨by decide, navigate_not_dir_state_unchanged navFS fmState0 "/nope" (by decide)⟩

/-- **C5 counterexample.** A thumbnail job whose processing raises (file
vanished, permission denied, corrupt data) emits a plain blank light-gray
pixmap on the ordinary `thumbnail_loaded` channel — exactly a
"successful blank/placeholder thumbnail", which the claim says is never how
a failure is reported. -/
theorem thumbnail_failure_emits_blank_pixmap :
    ThumbnailLoader.run "/tmp/t/a.jpg" 128 .raises =
      .loaded "/tmp/t/a.jpg" (.blankGray 128) := by decide

/-- **C5 amended.** Every failing job's exception is caught and answered
with a blank light-gray pixmap emitted on the same `thumbnail_loaded`
completion channel as successes; that channel (`pyqtSignal(str, QPixmap)`)
can only ever carry a path and a pixmap, so no typed failure value exists
and the requester cannot distinguish a failed job from a delivered
thumbnail by the shape of the completion event. -/
theorem thumbnail_failure_blank_on_success_channel :
    (∀ path size, ThumbnailLoader.run path size .raises =
      .loaded path (.blankGray size)) ∧
    (∀ e : ThumbEmit, ∃ path pix, e = .loaded path pix) := by
  refine ⟨fun path size => rfl, fun e => ?_⟩
  cases e with
  | loaded p x => exact ⟨p, x, rfl⟩

/-- **C1 counterexample.** Two `load_thumbnail` requests for the same
uncached path, the second arriving while the first job is still in flight
(nothing has completed, so the path is still absent from the cache), spawn
two decode jobs — not the claimed single one. -/
theorem duplicate_job_spawned_for_inflight_path :
    ((load_thumbnail thumbFS "/tmp/t/a.jpg"
        (load_thumbnail thumbFS "/tmp/t/a.jpg" ThumbState.init)).spawn_log.count
      "/tmp/t/a.jpg") = 2 := by decide

/-- **C1 amended.** Only the completed-result cache deduplicates thumbnail
work: a request for a cached path is answered from `thumbnail_cache` and
spawns nothing, while a request for an uncached non-directory path always
constructs and starts a fresh decode job — even when one is already in
flight for that path, whose `thumbnail_loaders` entry is then overwritten. -/
theorem load_thumbnail_cache_is_only_dedup (fs : FS) (s : ThumbState)
    (p : String) :
    ((dictGet? p s.thumbnail_cache).isSome → load_thumbnail fs p s = s) ∧
    ((dictGet? p s.thumbnail_cache) = none → fs.isdir p = false →
      (load_thumbnail fs p s).spawn_log = s.spawn_log ++ [p] ∧
      (load_thumbnail fs p s).thumbnail_loaders =
        dictSet p s.next_loader_id s.thumbnail_loaders) := by
  constructor
  · intro h
    simp [load_thumbnail, h]
  · intro h hd
    simp [load_thumbnail, h, hd]

/-- Witness for `load_thumbnail_cache_is_only_dedup`: the cached path spawns
nothing; the uncached in-flight path gets a second spawn appended. -/
theorem load_thumbnail_cache_is_only_dedup_witness :
    (load_thumbnail thumbFS "/tmp/t/a.jpg" cachedThumbState = cachedThumbState) ∧
    ((load_thumbnail thumbFS "/tmp/t/a.jpg"
        (load_thumbnail thumbFS "/tmp/t/a.jpg" ThumbState.init)).spawn_log =
      (load_thumbnail thumbFS "/tmp/t/a.jpg" ThumbState.init).spawn_log ++
        ["/tmp/t/a.jpg"]) :=
  ⟨(load_thumbnail_cache_is_only_dedup thumbFS cachedThumbState
      "/tmp/t/a.jpg").1 (by decide),
   ((load_thumbnail_cache_is_only_dedup thumbFS
      (load_thumbnail thumbFS "/tmp/t/a.jpg" ThumbState.init)
      "/tmp/t/a.jpg").2 (by decide) (by decide)).1⟩

/-- **C3 counterexample.** With pattern `"*.png"` and no category selection,
the filter keeps only names containing the literal five characters `*.png`:
`IMG.PNG` is removed, not matched — `*` is no wildcard in `apply_filters`,
refuting the claim that the result is exactly the `.png`-suffixed files. -/
theorem wildcard_pattern_matches_nothing :
    apply_filters "*.png" [] ["IMG.PNG"] = ([], []) ∧
    ([] : List String) ≠ ["IMG.PNG"] := by decide

/-- `stop_current_media` empties the playing set whenever the arbiter
invariant holds. -/
theorem stop_current_media_playing_nil {s : MediaState} (h : MediaInv s) :
    (stop_current_media s).playing = [] := by
  simp only [stop_current_media]
  rw [List.filter_eq_nil_iff]
  intro x hx
  rcases h x hx with h1 | h1 <;> simp [h1]

/-- Each arbiter operation preserves the invariant. -/
theorem mediaInv_step (op : MediaOp) {s : MediaState} (h : MediaInv s) :
    MediaInv (op.step s) := by
  cases op with
  | registerPlayer hdl =>
      intro x hx
      simp only [MediaOp.step, playHandle, register_media_player,
        stop_current_media_playing_nil h, List.mem_singleton] at hx
      subst hx
      exact Or.inl rfl
  | registerGif hdl =>
      intro x hx
      simp only [MediaOp.step, playHandle, register_gif_movie,
        stop_current_media_playing_nil h, List.mem_singleton] at hx
      subst hx
      exact Or.inr rfl
  | stopCurrent =>
      intro x hx
      simp only [MediaOp.step, stop_current_media_playing_nil h] at hx
      simp at hx

/-- The invariant is preserved along any run. -/
theorem mediaInv_run {s : MediaState} (h : MediaInv s) (ops : List MediaOp) :
    MediaInv (runMediaOps ops s) := by
  induction ops generalizing s with
  | nil => exact h
  | cons op rest ih => exact ih (mediaInv_step op h)

/-- The arbiter invariant holds initially. -/
theorem mediaInv_init : MediaInv MediaState.init := by
  intro x hx
  simp [MediaState.init] at hx

/-- Registering a playback on any invariant state leaves exactly the new
handle playing. -/
theorem step_register_playing {s : MediaState} (h : MediaInv s) (hdl : Nat) :
    (MediaOp.step (.registerPlayer hdl) s).playing = [hdl] ∧
    (MediaOp.step (.registerGif hdl) s).playing = [hdl] := by
  constructor <;>
    simp [MediaOp.step, playHandle, register_media_player, register_gif_movie,
      stop_current_media_playing_nil h]

/-- **C8.** For every sequence of arbiter operations from the initial state,
immediately after `registerPlayback(h)` — register a media player or a GIF
movie with the global manager, then start it, as every call site does —
`h` is the only playing handle: the previous playback was stopped
synchronously inside `register_*` before the new handle was stored. In
particular `registerPlayback(h1)` then `registerPlayback(h2)` leaves exactly
`h2` playing. -/
theorem register_playback_exclusive (ops : List MediaOp) (hdl h1 h2 : Nat) :
    (runMediaOps (ops ++ [.registerPlayer hdl]) MediaState.init).playing = [hdl] ∧
    (runMediaOps (ops ++ [.registerGif hdl]) MediaState.init).playing = [hdl] ∧
    (runMediaOps [.registerPlayer h1, .registerPlayer h2]
        MediaState.init).playing = [h2] := by
  have hrunfold : ∀ (l : List MediaOp) (op : MediaOp),
      runMediaOps (l ++ [op]) MediaState.init =
        op.step (runMediaOps l MediaState.init) := by
    intro l op
    simp [runMediaOps, List.foldl_append]
  refine ⟨?_, ?_, ?_⟩
  · rw [hrunfold]
    exact (step_register_playing (mediaInv_run mediaInv_init ops) hdl).1
  · rw [hrunfold]
    exact (step_register_playing (mediaInv_run mediaInv_init ops) hdl).2
  · exact (step_register_playing (mediaInv_step (.registerPlayer h1) mediaInv_init) h2).1

/-- The empty needle is a substring of everything. -/
theorem subListAt_nil_left (cs : List Char) : subListAt [] cs = true := by
  cases cs <;> simp [subListAt, List.isPrefixOf]

/-- The descending `removeRow` loop computes an ordinary filter: processing
rows `r-1, ..., 0` filters the first `r` rows and leaves the tail alone. -/
theorem removeRowsDown_eq_filter (keep : String → Bool) :
    ∀ (r : Nat) (l : List String), r ≤ l.length →
      removeRowsDown keep r l = (l.take r).filter keep ++ l.drop r := by
  intro r
  induction r with
  | zero => intro l _; simp [removeRowsDown]
  | succ r ih =>
    intro l h
    have hr : r < l.length := by omega
    have hget : l.getD r "" = l[r] := by
      simp [List.getD_eq_getElem?_getD, List.getElem?_eq_getElem hr]
    by_cases hk : keep l[r] = true
    · rw [removeRowsDown, if_pos (by rw [hget]; exact hk)]
      rw [ih l (by omega)]
      rw [List.take_succ, List.getElem?_eq_getElem hr]
      rw [List.filter_append]
      rw [List.drop_eq_getElem_cons hr]
      simp [hk]
    · rw [removeRowsDown, if_neg (by rw [hget]; exact hk)]
      have hlen : r ≤ (l.eraseIdx r).length := by
        rw [List.length_eraseIdx_of_lt hr]
        omega
      rw [ih (l.eraseIdx r) hlen]
      have he : l.eraseIdx r = l.take r ++ l.drop (r + 1) :=
        List.eraseIdx_eq_take_drop_succ l r
      have hlt : (l.take r).length = r := by
        simp [List.length_take]
        omega
      rw [he, List.take_left' hlt, List.drop_left' hlt]
      rw [List.take_succ, List.getElem?_eq_getElem hr]
      rw [List.filter_append]
      simp [hk]

/-- The whole-model filter loop is `List.filter`. -/
theorem filterModelRows_eq_filter (keep : String → Bool) (l : List String) :
    filterModelRows keep l = l.filter keep := by
  have h := removeRowsDown_eq_filter keep l.length l le_rfl
  simpa [filterModelRows] using h

/-- **C3 amended.** Filtering matches names case-insensitively by literal
substring containment — `*` and `?` have no special meaning — and returns
the subsequence of entries (folders and files alike) whose lower-cased name
contains the lower-cased pattern; the empty pattern keeps everything, and no
category filtering exists in `apply_filters`. In particular, pattern
`".png"` keeps `IMG.PNG`. -/
theorem apply_filters_substring_semantics (search : String)
    (folders files : List String) :
    apply_filters search folders files =
      (folders.filter (fun n => pyIn (pyLower search) (pyLower n)),
       files.filter (fun n => pyIn (pyLower search) (pyLower n))) ∧
    apply_filters ".png" [] ["IMG.PNG"] = ([], ["IMG.PNG"]) := by
  refine ⟨?_, by decide⟩
  by_cases he : pyLower search = ""
  · have hall : ∀ (l : List String),
        l.filter (fun n => pyIn "" (pyLower n)) = l := by
      intro l
      rw [List.filter_eq_self]
      intro a _
      simp [pyIn, subListAt_nil_left]
    simp [apply_filters, he, hall]
  · simp [apply_filters, he, filterModelRows_eq_filter]

/-- **C6.** The frame-selection logic is written as claimed — the scan
stops at the first of the initial 30 frames whose mean exceeds 10 and whose
standard deviation exceeds 5, which is index 5 (the sixth frame) for the
spec's five-black-frames-then-lit video — but the program can never deliver
a frame-derived thumbnail: the conversion `QImage(...)` on line 364 names a
class that is never imported, so the qualifying-frame path raises
`NameError` and the exception handler emits the plain blank light-gray
pixmap in its place. And when no frame among the first 30 qualifies, no
`NoRepresentativeFrame` value is reported (the completion channel carries
only pixmaps): the generic default document icon is delivered instead. -/
theorem video_thumbnail_frame_path_raises :
    scanFrames 30 0 demoFrames = some 5 ∧
    ThumbnailLoader.run "/tmp/t/b.mp4" 128 (.video demoFrames) =
      .loaded "/tmp/t/b.mp4" (.blankGray 128) ∧
    ThumbnailLoader.run "/tmp/t/c.mp4" 128
        (.video (List.replicate 30 ⟨0, 0⟩)) =
      .loaded "/tmp/t/c.mp4" (.defaultDocIcon 128) := by decide

/-- **C10 counterexample.** `_parse_size "-1"` is `-1` although the input is
not `"<DIR>"`: "returns -1 exactly when the input is `<DIR>`" fails in the
only-if direction (any string denoting the number -1 also yields it). -/
theorem parse_size_minus_one_without_dir :
    _parse_size "-1" = PyRat.ofInt (-1) ∧ "-1" ≠ "<DIR>" := by decide

/-- Multiplying a `PyRat` by the natural constant 1 is the identity. -/
theorem PyRat.mulNat_one (q : PyRat) : q.mulNat 1 = q := by
  cases q with
  | mk n d => simp [PyRat.mulNat]

/-- **C10 amended.** `_parse_size` is total — every arithmetic failure is
caught by the bare `except` and becomes `0`, so Size sorting cannot fail on
malformed cells — and it equals the claim-worded parser: `-1` for the exact
input `"<DIR>"` (though not only for it, see the counterexample), the byte
count (unit suffix from the `B`/`KB`/`MB`/`GB`/`TB` table multiplied out, or
the bare number) when the trimmed input parses, and `0` for every string
that does not parse. -/
theorem parse_size_refines_spec (s : String) :
    _parse_size s = parse_size_spec s := by
  by_cases hdir : s = "<DIR>"
  · simp [_parse_size, parse_size_spec, hdir]
  · simp only [_parse_size, parse_size_spec, hdir, if_false, unit_table,
      List.find?]
    by_cases h1 : [' ', 'B'].isSuffixOf (stripWs s.toList)
    · simp only [h1, if_true, List.length_cons, List.length_nil]
      cases hopt :
          pyFloatL? ((stripWs s.toList).take ((stripWs s.toList).length - 2)) <;>
        simp [hopt, PyRat.mulNat_one]
    · simp only [h1, if_false, Bool.false_eq_true]
      by_cases h2 : [' ', 'K', 'B'].isSuffixOf (stripWs s.toList)
      · simp only [h2, if_true, List.length_cons, List.length_nil]
      · simp only [h2, if_false, Bool.false_eq_true]
        by_cases h3 : [' ', 'M', 'B'].isSuffixOf (stripWs s.toList)
        · simp only [h3, if_true, List.length_cons, List.length_nil]
          cases hopt :
              pyFloatL? ((stripWs s.toList).take ((stripWs s.toList).length - 3)) <;>
            simp [hopt]
        · simp only [h3, if_false, Bool.false_eq_true]
          by_cases h4 : [' ', 'G', 'B'].isSuffixOf (stripWs s.toList)
          · simp only [h4, if_true, List.length_cons, List.length_nil]
            cases hopt :
                pyFloatL? ((stripWs s.toList).take ((stripWs s.toList).length - 3)) <;>
              simp [hopt]
          · simp only [h4, if_false, Bool.false_eq_true]
            by_cases h5 : [' ', 'T', 'B'].isSuffixOf (stripWs s.toList)
            · simp only [h5, if_true, List.length_cons, List.length_nil]
              cases hopt :
                  pyFloatL? ((stripWs s.toList).take ((stripWs s.toList).length - 3)) <;>
                simp [hopt]
            · simp only [h5, if_false, Bool.false_eq_true]

/-- Every decimal digit character is a plain digit: not `-`, not `<`, not
whitespace. -/
theorem digitChar_plain : ∀ d, d < 10 →
    (digitChar d ≠ '-' ∧ digitChar d ≠ '<' ∧ isPyWs (digitChar d) = false) := by
  decide

/-- `natDigitsRevF` with sufficient fuel yields digits below 10. -/
theorem natDigitsRevF_lt : ∀ (fuel n : Nat), n ≤ fuel →
    ∀ d ∈ natDigitsRevF fuel n, d < 10 := by
  intro fuel
  induction fuel with
  | zero =>
    intro n hn d hd
    simp [natDigitsRevF] at hd
    omega
  | succ f ih =>
    intro n hn d hd
    rw [natDigitsRevF] at hd
    by_cases h10 : n < 10
    · rw [if_pos h10] at hd
      simp at hd
      omega
    · rw [if_neg h10] at hd
      simp at hd
      rcases hd with hd | hd
      · subst hd
        exact Nat.mod_lt _ (by omega)
      · refine ih (n / 10) ?_ d hd
        have := Nat.div_lt_self (show 0 < n by omega) (show 1 < 10 by omega)
        omega

/-- Digits of `natDigitsRev` are below 10. -/
theorem natDigitsRev_lt (n : Nat) : ∀ d ∈ natDigitsRev n, d < 10 :=
  natDigitsRevF_lt n n le_rfl

/-- Character inventory of `natToDecimal`: digit characters only. -/
theorem natToDecimal_chars (n : Nat) :
    ∀ c ∈ (natToDecimal n).toList, ∃ d, d < 10 ∧ c = digitChar d := by
  intro c hc
  simp [natToDecimal, String.toList] at hc
  obtain ⟨d, hd, rfl⟩ := hc
  exact ⟨d, natDigitsRev_lt n d hd, rfl⟩

/-- Character inventory of `formatFixed1`: digits and one point. -/
theorem formatFixed1_chars (q : PyRat) :
    ∀ c ∈ (formatFixed1 q).toList, (∃ d, d < 10 ∧ c = digitChar d) ∨ c = '.' := by
  intro c hc
  simp only [formatFixed1, String.toList, String.data_append] at hc
  rcases List.mem_append.mp hc with hc | hc
  · rcases List.mem_append.mp hc with hc | hc
    · exact Or.inl (natToDecimal_chars _ c hc)
    · simp at hc
      exact Or.inr hc
  · simp at hc
    subst hc
    exact Or.inl ⟨_, Nat.mod_lt _ (by omega), rfl⟩

/-- Character inventory of the unit table (any index, default included). -/
theorem size_names_getD_chars (i : Nat) :
    ∀ c ∈ (size_names.getD i "B").toList,
      c = 'B' ∨ c = 'K' ∨ c = 'M' ∨ c = 'G' ∨ c = 'T' := by
  match i with
  | 0 => decide
  | 1 => decide
  | 2 => decide
  | 3 => decide
  | 4 => decide
  | i + 5 =>
    have hdef : size_names.getD (i + 5) "B" = "B" := by
      rw [List.getD_eq_getElem?_getD, List.getElem?_eq_none]
      · rfl
      · simp [size_names]
    rw [hdef]
    decide

/-- The rendered size string never contains `-` or `<`. -/
theorem format_file_size_chars (n : Nat) :
    '-' ∉ (format_file_size n).toList ∧ '<' ∉ (format_file_size n).toList := by
  by_cases h0 : n = 0
  · subst h0
    constructor <;> decide
  · have key : ∀ c ∈ (format_file_size n).toList, c ≠ '-' ∧ c ≠ '<' := by
      intro c hc
      rw [format_file_size, if_neg h0] at hc
      simp only [String.toList, String.data_append] at hc
      rcases List.mem_append.mp hc with hc | hc
      · rcases List.mem_append.mp hc with hc | hc
        · rcases formatFixed1_chars _ c hc with ⟨d, hd, rfl⟩ | rfl
          · exact ⟨(digitChar_plain d hd).1, (digitChar_plain d hd).2.1⟩
          · constructor <;> decide
        · simp at hc
          subst hc
          constructor <;> decide
      · rcases size_names_getD_chars _ c hc with rfl | rfl | rfl | rfl | rfl <;>
          (constructor <;> decide)
    exact ⟨fun hc => (key _ hc).1 rfl, fun hc => (key _ hc).2 rfl⟩

/-- `format_file_size` never renders the directory placeholder. -/
theorem format_file_size_ne_dir (n : Nat) : format_file_size n ≠ "<DIR>" := by
  intro h
  have hlt : '<' ∈ (format_file_size n).toList := by
    rw [h]
    decide
  exact (format_file_size_chars n).2 hlt

/-- Stripping whitespace only removes characters. -/
theorem mem_stripWs {c : Char} {l : List Char} (h : c ∈ stripWs l) : c ∈ l := by
  rw [stripWs] at h
  rw [List.mem_reverse] at h
  have h1 := (List.dropWhile_sublist isPyWs).subset h
  rw [List.mem_reverse] at h1
  exact (List.dropWhile_sublist isPyWs).subset h1

/-- The numerator of a scientific value is the nonnegative mantissa times a
power of ten; its denominator is a positive power of ten. -/
theorem PyRat.ofSci_nonneg (num fk : Nat) (e : Int) :
    0 ≤ (PyRat.ofSci num fk e).num ∧ 0 < (PyRat.ofSci num fk e).den := by
  cases e with
  | ofNat k =>
    refine ⟨mul_nonneg (Int.natCast_nonneg num) (by positivity), ?_⟩
    simp [PyRat.ofSci]
  | negSucc k =>
    refine ⟨Int.natCast_nonneg num, ?_⟩
    simp [PyRat.ofSci]

/-- Any successfully parsed unsigned float literal has a nonnegative
numerator and a positive denominator. -/
theorem pyFloatCore_nonneg {cs : List Char} {q : PyRat}
    (h : pyFloatCore cs = some q) : 0 ≤ q.num ∧ 0 < q.den := by
  rw [pyFloatCore] at h
  cases hm : scanMantissa cs with
  | none => rw [hm] at h; simp at h
  | some nfr =>
    rw [hm] at h
    cases he : scanExpTail nfr.2.2 with
    | none => simp [he, Option.bind] at h
    | some e =>
      simp [he, Option.bind] at h
      rw [← h]
      exact PyRat.ofSci_nonneg nfr.1 nfr.2.1 e

/-- Any successfully parsed float has a positive denominator (the sign does
not touch it). -/
theorem pyFloatL?_den_pos {cs : List Char} {q : PyRat}
    (h : pyFloatL? cs = some q) : 0 < q.den := by
  rw [pyFloatL?] at h
  cases hs : stripWs cs with
  | nil =>
    rw [hs] at h
    exact (pyFloatCore_nonneg h).2
  | cons c r =>
    rw [hs, pyFloatSigned] at h
    by_cases hp : c = '+'
    · rw [if_pos hp] at h
      exact (pyFloatCore_nonneg h).2
    · rw [if_neg hp] at h
      by_cases hmn : c = '-'
      · rw [if_pos hmn] at h
        cases hc : pyFloatCore r with
        | none => rw [hc] at h; simp at h
        | some q' =>
          rw [hc] at h
          simp [PyRat.neg] at h
          rw [← h]
          exact (pyFloatCore_nonneg hc).2
      · rw [if_neg hmn] at h
        exact (pyFloatCore_nonneg h).2

/-- A parsed float whose input contains no minus sign is nonnegative. -/
theorem pyFloatL?_nonneg_of_no_minus {cs : List Char} {q : PyRat}
    (hm : '-' ∉ cs) (h : pyFloatL? cs = some q) : 0 ≤ q.num ∧ 0 < q.den := by
  rw [pyFloatL?] at h
  cases hs : stripWs cs with
  | nil =>
    rw [hs] at h
    exact pyFloatCore_nonneg h
  | cons c r =>
    rw [hs, pyFloatSigned] at h
    by_cases hp : c = '+'
    · rw [if_pos hp] at h
      exact pyFloatCore_nonneg h
    · rw [if_neg hp] at h
      by_cases hmn : c = '-'
      · exfalso
        apply hm
        apply mem_stripWs (l := cs)
        rw [hs, hmn]
        exact List.mem_cons_self _ _
      · rw [if_neg hmn] at h
        exact pyFloatCore_nonneg h

/-- A minus sign absent from a string is absent from every stripped take. -/
theorem no_minus_take {s : String} (hm : '-' ∉ s.toList) (k : Nat) :
    '-' ∉ (stripWs s.toList).take k := by
  intro hc
  exact hm (mem_stripWs ((List.take_sublist k _).subset hc))

/-- `_parse_size` always produces a positive denominator. -/
theorem parse_size_den_pos (s : String) : 0 < (_parse_size s).den := by
  have hbr : ∀ (cs : List Char) (m : Nat),
      0 < (((pyFloatL? cs).map (fun q => q.mulNat m)).getD (PyRat.ofInt 0)).den := by
    intro cs m
    cases hopt : pyFloatL? cs with
    | none => simp [PyRat.ofInt]
    | some q => simpa [PyRat.mulNat] using pyFloatL?_den_pos hopt
  have hplain : ∀ (cs : List Char),
      0 < ((pyFloatL? cs).getD (PyRat.ofInt 0)).den := by
    intro cs
    cases hopt : pyFloatL? cs with
    | none => simp [PyRat.ofInt]
    | some q => simpa using pyFloatL?_den_pos hopt
  rw [_parse_size]
  by_cases hdir : s = "<DIR>"
  · simp [hdir, PyRat.ofInt]
  · simp only [hdir, if_false]
    split
    · exact hplain _
    · split
      · exact hbr _ _
      · split
        · exact hbr _ _
        · split
          · exact hbr _ _
          · split
            · exact hbr _ _
            · exact hplain _

/-- For strings with no minus sign (other than the `"<DIR>"` placeholder),
`_parse_size` is nonnegative: each branch either parses an unsigned value,
multiplies it by a positive unit, or fails to `0`. -/
theorem parse_size_nonneg {s : String} (hm : '-' ∉ s.toList)
    (hdir : s ≠ "<DIR>") : 0 ≤ (_parse_size s).num := by
  have hbr : ∀ (k m : Nat),
      0 ≤ (((pyFloatL? ((stripWs s.toList).take k)).map
        (fun q => q.mulNat m)).getD (PyRat.ofInt 0)).num := by
    intro k m
    cases hopt : pyFloatL? ((stripWs s.toList).take k) with
    | none => simp [PyRat.ofInt]
    | some q =>
      have hq := (pyFloatL?_nonneg_of_no_minus (no_minus_take hm k) hopt).1
      simpa [PyRat.mulNat] using mul_nonneg hq (Int.natCast_nonneg m)
  have hbr1 : ∀ (k : Nat),
      0 ≤ ((pyFloatL? ((stripWs s.toList).take k)).getD (PyRat.ofInt 0)).num := by
    intro k
    cases hopt : pyFloatL? ((stripWs s.toList).take k) with
    | none => simp [PyRat.ofInt]
    | some q =>
      simpa using (pyFloatL?_nonneg_of_no_minus (no_minus_take hm k) hopt).1
  have hplain :
      0 ≤ ((pyFloatL? (stripWs s.toList)).getD (PyRat.ofInt 0)).num := by
    cases hopt : pyFloatL? (stripWs s.toList) with
    | none => simp [PyRat.ofInt]
    | some q =>
      simpa using
        (pyFloatL?_nonneg_of_no_minus (fun hc => hm (mem_stripWs hc)) hopt).1
  rw [_parse_size]
  simp only [hdir, if_false]
  split
  · exact hbr1 _
  · split
    · exact hbr _ _
    · split
      · exact hbr _ _
      · split
        · exact hbr _ _
        · split
          · exact hbr _ _
          · exact hplain

/-- The Size key order is total on rows. -/
theorem rowSizeLE_total (a b : Row) : rowSizeLE a b ∨ rowSizeLE b a := by
  simp only [rowSizeLE, PyRat.le, decide_eq_true_eq]
  exact le_total _ _

instance : IsTotal Row rowSizeLE := ⟨rowSizeLE_total⟩

/-- The Size key order is transitive on rows: the keys `_parse_size`
produces always have positive denominators, so the cross-multiplied
comparisons chain. -/
theorem rowSizeLE_trans (a b c : Row) (hab : rowSizeLE a b)
    (hbc : rowSizeLE b c) : rowSizeLE a c := by
  simp only [rowSizeLE, PyRat.le, decide_eq_true_eq] at hab hbc ⊢
  have hdb : (0 : Int) < ((_parse_size b.size).den : Int) := by
    exact_mod_cast parse_size_den_pos b.size
  have hda : (0 : Int) ≤ ((_parse_size a.size).den : Int) := by positivity
  have hdc : (0 : Int) ≤ ((_parse_size c.size).den : Int) := by positivity
  have h1 := mul_le_mul_of_nonneg_right hab hdc
  have h2 := mul_le_mul_of_nonneg_right hbc hda
  have key : ((_parse_size a.size).num * ((_parse_size c.size).den : Int)) *
        ((_parse_size b.size).den : Int) ≤
      ((_parse_size c.size).num * ((_parse_size a.size).den : Int)) *
        ((_parse_size b.size).den : Int) := by
    calc ((_parse_size a.size).num * ((_parse_size c.size).den : Int)) *
          ((_parse_size b.size).den : Int)
        = ((_parse_size a.size).num * ((_parse_size b.size).den : Int)) *
          ((_parse_size c.size).den : Int) := by ring
      _ ≤ ((_parse_size b.size).num * ((_parse_size a.size).den : Int)) *
          ((_parse_size c.size).den : Int) := h1
      _ = ((_parse_size b.size).num * ((_parse_size c.size).den : Int)) *
          ((_parse_size a.size).den : Int) := by ring
      _ ≤ ((_parse_size c.size).num * ((_parse_size b.size).den : Int)) *
          ((_parse_size a.size).den : Int) := h2
      _ = ((_parse_size c.size).num * ((_parse_size a.size).den : Int)) *
          ((_parse_size b.size).den : Int) := by ring
  exact le_of_mul_le_mul_right key hdb

instance : IsTrans Row rowSizeLE := ⟨rowSizeLE_trans⟩

/-- **C9.** Sorting a table-model data list by the Size key in ascending
order places every directory row (size cell `"<DIR>"`, which `_parse_size`
keys as `-1`) strictly before every regular-file row (size cell rendered by
`format_file_size`, which keys nonnegatively) — regardless of the file's
numeric size. -/
theorem size_sort_directories_first (l : List Row) (n : Nat)
    (i j : Fin (sortBySizeAsc l).length)
    (hd : ((sortBySizeAsc l).get i).size = "<DIR>")
    (hf : ((sortBySizeAsc l).get j).size = format_file_size n) :
    (i : Nat) < (j : Nat) := by
  by_contra hle
  push_neg at hle
  have hnej : (j : Nat) ≠ (i : Nat) := by
    intro he
    have hij : i = j := Fin.ext he.symm
    rw [hij, hf] at hd
    exact format_file_size_ne_dir n hd
  have hji : j < i := by
    rw [Fin.lt_def]
    omega
  have hsorted : List.Sorted rowSizeLE (sortBySizeAsc l) :=
    List.sorted_insertionSort rowSizeLE l
  have hrel := hsorted.rel_get_of_lt hji
  rw [rowSizeLE, hd, hf] at hrel
  have hnum := parse_size_nonneg (format_file_size_chars n).1
    (format_file_size_ne_dir n)
  have hden := parse_size_den_pos (format_file_size n)
  have hdirval : _parse_size "<DIR>" = PyRat.ofInt (-1) := by decide
  rw [hdirval] at hrel
  simp only [PyRat.le, PyRat.ofInt, decide_eq_true_eq] at hrel
  push_cast at hrel
  omega

/-- Witness for `size_sort_directories_first` on a concrete two-row model
(file row first in the unsorted data, directory row first after sorting). -/
theorem size_sort_directories_first_witness :
    ((sortBySizeAsc demoRows).get ⟨0, by decide⟩).size = "<DIR>" ∧
    ((sortBySizeAsc demoRows).get ⟨1, by decide⟩).size = format_file_size 5 ∧
    (0 : Nat) < 1 :=
  ⟨by decide, by decide,
   size_sort_directories_first demoRows 5 ⟨0, by decide⟩ ⟨1, by decide⟩
     (by decide) (by decide)⟩

end FileManagerPro
